import Mathlib

/-!
Shallow embedding of the echobot knowledge-base / RAG core:
the Convex knowledge-base CRUD handlers (getAll, getOne, create, update,
remove), the knowledgeBase table of packages/backend/convex/schema.ts with
its organization-filtered vector index, and the embedding-provider adapter
of packages/backend/convex/system/ai/rag.ts (embeddingModelV2).

Conventions of the embedding:
- float64 scalars of embedding vectors are modelled as rationals; no claim
  depends on floating-point rounding.
- Convex document ids are modelled as naturals, the database as an
  association list from id to row; `ctx.db.patch` with a field set to
  `undefined` removes the field, modelled as setting the Option field to
  none.
- A handler that throws ConvexError is modelled as returning
  `Except ErrCode`; Convex rolls back a throwing mutation, so an error
  result carries no new state.
- `Date.now()` is passed explicitly as a `now : Nat` argument.
-/

namespace EchoBot

/-- ConvexError codes thrown by the knowledge-base handlers. -/
inductive ErrCode where
  | UNAUTHORIZED
  | NOT_FOUND
  | FORBIDDEN
  | BAD_REQUEST
deriving DecidableEq

/-- The authenticated identity returned by `ctx.auth.getUserIdentity()`:
the `orgId` claim may be absent (`undefined`); the handlers treat both an
absent and an empty-string orgId as missing (`if (!orgId)`). -/
structure Identity where
  orgId : Option String
deriving DecidableEq

/-- A row of the `knowledgeBase` table (packages/backend/convex/schema.ts):
organizationId, title, content, mimeType, fileName, optional embedUrl,
optional storageId, optional embedding vector, createdAt, optional
updatedAt. -/
structure Doc where
  organizationId : String
  title : String
  content : String
  mimeType : String
  fileName : String
  embedUrl : Option String
  storageId : Option Nat
  embedding : Option (List ℚ)
  createdAt : Nat
  updatedAt : Option Nat
deriving DecidableEq

/-- The knowledgeBase table: association list from document id to row. -/
abbrev Db := List (Nat × Doc)

/-- The blob store `_storage`: the set of live storage ids. -/
abbrev Storage := List Nat

/-- `ctx.db.get(id)`. -/
def dbGet : Db → Nat → Option Doc
  | [], _ => none
  | p :: rest, i => if p.1 = i then some p.2 else dbGet rest i

/-- `ctx.db.patch(id, fields)`: replace the row stored under `id`. -/
def dbPatch (db : Db) (i : Nat) (d : Doc) : Db :=
  db.map (fun p => if p.1 = i then (i, d) else p)

/-- `ctx.db.delete(id)`. -/
def dbDelete (db : Db) (i : Nat) : Db :=
  db.filter (fun p => decide (p.1 ≠ i))

/-- `ctx.storage.delete(storageId)`. -/
def storageDelete (st : Storage) (s : Nat) : Storage :=
  st.filter (fun x => decide (x ≠ s))

/-- The JS falsiness test `!s.trim()`: `s.trim()` is the empty string
exactly when every character of `s` is whitespace. -/
def isBlank (s : String) : Bool := s.data.all (fun ch => ch.isWhitespace)

/-- The authentication preamble repeated in every handler: throw
UNAUTHORIZED when there is no identity, and throw UNAUTHORIZED when the
orgId claim is missing or empty (`if (!orgId)`). -/
def requireOrg : Option Identity → Except ErrCode String
  | none => .error .UNAUTHORIZED
  | some idn =>
    match idn.orgId with
    | none => .error .UNAUTHORIZED
    | some orgId => if orgId = "" then .error .UNAUTHORIZED else .ok orgId

/-- Relation used by getAll's comparator `(a, b) => b.createdAt - a.createdAt`:
a sorts before b when its createdAt is at least b's (newest first). -/
def newestFirst (a b : Doc) : Prop := b.createdAt ≤ a.createdAt

instance : DecidableRel newestFirst := fun a b => Nat.decLe b.createdAt a.createdAt

instance : IsTotal Doc newestFirst := ⟨fun a b => Nat.le_total b.createdAt a.createdAt⟩

instance : IsTrans Doc newestFirst := ⟨fun _ _ _ hab hbc => Nat.le_trans hbc hab⟩

/-- `getAll` handler: authenticate, collect the rows whose organizationId is
the caller's org (the by_organization_id index), and sort them newest
first (the JS `sort((a, b) => b.createdAt - a.createdAt)`, modelled as a
comparison sort realizing the same ordering). -/
def getAll (ident : Option Identity) (db : Db) : Except ErrCode (List Doc) :=
  match requireOrg ident with
  | .error e => .error e
  | .ok orgId =>
    .ok (List.insertionSort newestFirst
      ((db.filter (fun p => decide (p.2.organizationId = orgId))).map Prod.snd))

/-- `getOne` handler: authenticate, get the document, throw NOT_FOUND when
absent and FORBIDDEN when it belongs to another organization. -/
def getOne (ident : Option Identity) (db : Db) (documentId : Nat) : Except ErrCode Doc :=
  match requireOrg ident with
  | .error e => .error e
  | .ok orgId =>
    match dbGet db documentId with
    | none => .error .NOT_FOUND
    | some document =>
      if document.organizationId ≠ orgId then .error .FORBIDDEN
      else .ok document

/-- `create` handler: authenticate, reject a blank title or blank content
with BAD_REQUEST, then insert the row with the caller's organizationId,
`createdAt: Date.now()`, and no embedding or updatedAt field. -/
def create (ident : Option Identity) (now : Nat) (db : Db) (newId : Nat)
    (title content mimeType fileName : String) (embedUrl : Option String)
    (storageId : Option Nat) : Except ErrCode (Nat × Db) :=
  match requireOrg ident with
  | .error e => .error e
  | .ok orgId =>
    if isBlank title then .error .BAD_REQUEST
    else if isBlank content then .error .BAD_REQUEST
    else
      .ok (newId,
        (newId,
          { organizationId := orgId
            title := title
            content := content
            mimeType := mimeType
            fileName := fileName
            embedUrl := embedUrl
            storageId := storageId
            embedding := none
            createdAt := now
            updatedAt := none }) :: db)

/-- The `if (args.title !== undefined)` block of `update`: reject a blank
title with BAD_REQUEST, otherwise add the title to the update object. -/
def applyTitle (d : Doc) : Option String → Except ErrCode Doc
  | none => .ok d
  | some t => if isBlank t then .error .BAD_REQUEST else .ok { d with title := t }

/-- The `if (args.content !== undefined)` block of `update`: reject blank
content with BAD_REQUEST, otherwise set the content and clear the
embedding (`updates.embedding = undefined`, removed on patch). -/
def applyContent (d : Doc) : Option String → Except ErrCode Doc
  | none => .ok d
  | some c =>
    if isBlank c then .error .BAD_REQUEST
    else .ok { d with content := c, embedding := none }

/-- `update` handler: authenticate, get the document, throw NOT_FOUND /
FORBIDDEN, start the update object with `updatedAt: Date.now()`, validate
and add the optional title then the optional content (clearing the
embedding with it), and patch the row. -/
def update (ident : Option Identity) (now : Nat) (db : Db) (documentId : Nat)
    (title content : Option String) : Except ErrCode (Nat × Db) :=
  match requireOrg ident with
  | .error e => .error e
  | .ok orgId =>
    match dbGet db documentId with
    | none => .error .NOT_FOUND
    | some document =>
      if document.organizationId ≠ orgId then .error .FORBIDDEN
      else
        match applyTitle { document with updatedAt := some now } title with
        | .error e => .error e
        | .ok d1 =>
          match applyContent d1 content with
          | .error e => .error e
          | .ok d2 => .ok (documentId, dbPatch db documentId d2)

/-- `remove` handler: authenticate, get the document, throw NOT_FOUND /
FORBIDDEN, delete the stored blob when the document has a storageId, then
delete the row. -/
def remove (ident : Option Identity) (db : Db) (storage : Storage)
    (documentId : Nat) : Except ErrCode (Db × Storage) :=
  match requireOrg ident with
  | .error e => .error e
  | .ok orgId =>
    match dbGet db documentId with
    | none => .error .NOT_FOUND
    | some document =>
      if document.organizationId ≠ orgId then .error .FORBIDDEN
      else
        let storage1 :=
          match document.storageId with
          | some s => storageDelete storage s
          | none => storage
        .ok (dbDelete db documentId, storage1)

/-- Modelled from the spec: the `by_embedding` vector index of the
knowledgeBase table declares `filterFields: ["organizationId"]`, and the
spec requires every vector search to pass the tenant filter and to cover
only documents that have an embedding (a document with `embedding == null`
is excluded from vector search). The searching action itself
(api.private.ragIntegration.searchKnowledgeBase) is not among the provided
sources; this models the set of rows a tenant-filtered search ranges
over. -/
def vectorSearch (db : Db) (orgId : String) : List (Nat × Doc) :=
  db.filter (fun p => decide (p.2.organizationId = orgId) && p.2.embedding.isSome)

/-- The `embeddingDimension` configured on the RAG instance
(packages/backend/convex/system/ai/rag.ts). -/
def ragEmbeddingDimension : Nat := 3072

/-- A JS value returned by a v1 provider's `embed(input)`: either a flat
vector (an array of numbers) or an array of vectors — the adapter probes
`Array.isArray(out[0])` to tell them apart. -/
inductive EmbedOut where
  | vec (v : List ℚ)
  | vecs (vs : List (List ℚ))
deriving DecidableEq

/-- The underlying v1 provider model as seen through the adapter's
`typeof (v1 as any).embed === "function"` probes: either call shape may be
absent. Its `embedMany` returns an array of flat vectors. -/
structure ProviderV1 where
  embed : Option (String → EmbedOut)
  embedMany : Option (List String → List (List ℚ))

/-- A possibly-undefined vector: JS indexing `arr[0]` on an empty array
yields `undefined`. -/
inductive JsVec where
  | undef
  | vec (v : List ℚ)
deriving DecidableEq

/-- The unwrap `Array.isArray(out) && Array.isArray(out[0]) ? out[0] : out`
in embeddingModelV2.embed: for a flat vector `out[0]` is a number, so the
vector itself is returned; for a non-empty array of vectors the first
vector is returned; for an empty array `out[0]` is undefined, so the
(empty) array itself is returned. -/
def unwrapEmbedOut : EmbedOut → List ℚ
  | .vec v => v
  | .vecs [] => []
  | .vecs (v :: _) => v

/-- `embeddingModelV2.embed` (system/ai/rag.ts): if the provider has an
`embed` method use it (with the unwrap above); otherwise, if it has
`embedMany`, call it on the singleton batch and take element 0; otherwise
throw. The thrown message is the code's; the spec names this failure
ProviderUnavailable. -/
def v2embed (p : ProviderV1) (input : String) : Except String JsVec :=
  match p.embed with
  | some f => .ok (.vec (unwrapEmbedOut (f input)))
  | none =>
    match p.embedMany with
    | some g =>
      match (g [input]).head? with
      | some v => .ok (.vec v)
      | none => .ok .undef
    | none => .error "v1 embedding model has no embed/embedMany"

/-- `embeddingModelV2.embedMany` (system/ai/rag.ts): if the provider has an
`embedMany` method, forward the whole batch to it; otherwise, if it has
`embed`, fan out with `Promise.all(inputs.map(...))`, which preserves
order; otherwise throw. The fan-out path returns the provider outputs
unmodified (no unwrapping happens on this path). -/
def v2embedMany (p : ProviderV1) (inputs : List String) :
    Except String (List EmbedOut) :=
  match p.embedMany with
  | some g => .ok ((g inputs).map EmbedOut.vec)
  | none =>
    match p.embed with
    | some f => .ok (inputs.map f)
    | none => .error "v1 embedding model can't embedMany"

/-- `embeddingModelAdapter.doEmbed` (the v1-specification adapter): it
delegates the whole batch to the ai-sdk `embedMany` helper over the Google
model, modelled here as the function `m`, and returns its embeddings
unchanged. -/
def doEmbed (m : List String → List (List ℚ)) (values : List String) :
    List (List ℚ) :=
  m values

/-- Modelled from the spec: the approximate token count of the Retrieval &
Context Assembler — characters divided by 4 (spec section 4.4 step 5); the
retrieval action (api.private.ragIntegration.searchKnowledgeBase) is not
among the provided sources. -/
def approxTokens (s : String) : Nat := s.data.length / 4

/-- Modelled from the spec: greedy accumulation of ranked candidate
snippets under a character budget (`maxTokens * 4`). A candidate that fits
is appended whole; the first candidate that would exceed the budget is
truncated to the remaining budget — but never below the per-candidate
truncation floor — and assembly stops. -/
def assembleChars (budgetChars floorChars : Nat) : Nat → List (List Char) → List Char
  | _, [] => []
  | used, c :: rest =>
    if used + c.length ≤ budgetChars then
      c ++ assembleChars budgetChars floorChars (used + c.length) rest
    else
      c.take (max (budgetChars - used) floorChars)

/-- Modelled from the spec: candidates are concatenated with a clear
per-source delimiter; the delimiter characters count against the budget. -/
def withDelims (delim : List Char) : List (List Char) → List (List Char)
  | [] => []
  | c :: rest => c :: rest.map (fun d => delim ++ d)

/-- Modelled from the spec: assemble the final context string from ranked
candidate snippets under the token budget, with a per-candidate truncation
floor of `floorTokens` tokens. -/
def assembleContext (maxTokens floorTokens : Nat) (candidates : List String) : String :=
  String.mk (assembleChars (maxTokens * 4) (floorTokens * 4) 0
    (withDelims "\n\n".data (candidates.map String.data)))

/-- Modelled from the spec: `retrieve(tenant_id, ...)` assembles the
context from the contents of the tenant-filtered vector-search candidates,
in ranked order (the token-budget property below does not depend on the
rank order). -/
def retrieve (db : Db) (orgId : String) (maxTokens floorTokens : Nat) : String :=
  assembleContext maxTokens floorTokens
    ((vectorSearch db orgId).map (fun p => p.2.content))

/-- A persisted document is well-formed when its title and content are not
blank (the validation create and update enforce). -/
def docOk (d : Doc) : Prop := isBlank d.title = false ∧ isBlank d.content = false

/-- Concrete document of tenant orgA used to evaluate the theorems. -/
def docA : Doc :=
  { organizationId := "orgA"
    title := "Refunds"
    content := "Refunds take 5 days"
    mimeType := "text/plain"
    fileName := "refunds.txt"
    embedUrl := none
    storageId := some 7
    embedding := some [1]
    createdAt := 10
    updatedAt := none }

/-- The row docA becomes after `update` with new content "new" at time 5. -/
def docA2 : Doc := { docA with content := "new", embedding := none, updatedAt := some 5 }

/-- The row docA becomes after a title-only `update` to "T2" at time 5. -/
def docA3 : Doc := { docA with title := "T2", updatedAt := some 5 }

/-- Concrete document of tenant orgB used to evaluate the theorems. -/
def docB : Doc :=
  { organizationId := "orgB"
    title := "Shipping"
    content := "Shipping is free over 50"
    mimeType := "text/plain"
    fileName := "shipping.txt"
    embedUrl := none
    storageId := none
    embedding := some [2]
    createdAt := 20
    updatedAt := none }

/-- Concrete caller identity of tenant orgA. -/
def identA : Identity := { orgId := some "orgA" }

/-- A provider exposing only the single-text call shape, returning the
constant flat vector [3]. -/
def provSingle : ProviderV1 :=
  { embed := some (fun _ => .vec [3]), embedMany := none }

/-- A provider exposing only the batch call shape, length- and
order-preserving with constant vector [3]. -/
def provBatch : ProviderV1 :=
  { embed := none, embedMany := some (fun xs => xs.map (fun _ => [3])) }

/-- A provider exposing both call shapes, consistently with constant
vector [3]. -/
def provBoth : ProviderV1 :=
  { embed := some (fun _ => .vec [3])
    embedMany := some (fun xs => xs.map (fun _ => [3])) }

/-- A provider exposing neither call shape. -/
def provNone : ProviderV1 := { embed := none, embedMany := none }

/-- A provider whose single-text call returns a vector of length 2 (not
the configured 3072). -/
def provShort : ProviderV1 :=
  { embed := some (fun _ => .vec [1, 2]), embedMany := none }

/-! Helper lemmas about the database model. -/

theorem dbGet_cons (p : Nat × Doc) (rest : Db) (i : Nat) :
    dbGet (p :: rest) i = if p.1 = i then some p.2 else dbGet rest i := rfl

theorem dbPatch_cons (p : Nat × Doc) (rest : Db) (i : Nat) (d : Doc) :
    dbPatch (p :: rest) i d = (if p.1 = i then (i, d) else p) :: dbPatch rest i d := rfl

theorem dbDelete_cons (p : Nat × Doc) (rest : Db) (i : Nat) :
    dbDelete (p :: rest) i =
      if p.1 = i then dbDelete rest i else p :: dbDelete rest i := by
  by_cases hp : p.1 = i <;> simp [dbDelete, List.filter, hp]

theorem dbGet_dbPatch_self (db : Db) (i : Nat) (d : Doc)
    (h : (dbGet db i).isSome) : dbGet (dbPatch db i d) i = some d := by
  induction db with
  | nil => simp [dbGet] at h
  | cons p rest ih =>
    rw [dbPatch_cons]
    by_cases hp : p.1 = i
    · rw [if_pos hp, dbGet_cons, if_pos rfl]
    · rw [if_neg hp, dbGet_cons, if_neg hp]
      rw [dbGet_cons, if_neg hp] at h
      exact ih h

theorem dbGet_dbPatch_ne (db : Db) (i j : Nat) (d : Doc) (h : j ≠ i) :
    dbGet (dbPatch db i d) j = dbGet db j := by
  induction db with
  | nil => rfl
  | cons p rest ih =>
    rw [dbPatch_cons, dbGet_cons]
    by_cases hp : p.1 = i
    · have h1 : ((i, d).1 = j) = False := by simp; omega
      have h2 : p.1 ≠ j := by omega
      rw [if_pos hp, dbGet_cons, if_neg h2]
      simp only [h1, if_false]
      exact ih
    · rw [if_neg hp, dbGet_cons]
      by_cases hj : p.1 = j
      · rw [if_pos hj, if_pos hj]
      · rw [if_neg hj, if_neg hj]
        exact ih

theorem mem_dbPatch {db : Db} {i : Nat} {d : Doc} {x : Nat × Doc}
    (h : x ∈ dbPatch db i d) : x = (i, d) ∨ (x ∈ db ∧ x.1 ≠ i) := by
  simp only [dbPatch, List.mem_map] at h
  obtain ⟨a, ha, hx⟩ := h
  by_cases hp : a.1 = i
  · left; rw [if_pos hp] at hx; exact hx.symm
  · right; rw [if_neg hp] at hx; subst hx; exact ⟨ha, hp⟩

theorem dbGet_mem {db : Db} {i : Nat} {d : Doc} (h : dbGet db i = some d) :
    (i, d) ∈ db := by
  induction db with
  | nil => simp [dbGet] at h
  | cons p rest ih =>
    rw [dbGet_cons] at h
    by_cases hp : p.1 = i
    · rw [if_pos hp] at h
      injection h with h2
      subst h2
      subst hp
      simp
    · rw [if_neg hp] at h
      exact List.mem_cons_of_mem p (ih h)

theorem dbGet_dbDelete_self (db : Db) (i : Nat) :
    dbGet (dbDelete db i) i = none := by
  induction db with
  | nil => rfl
  | cons p rest ih =>
    rw [dbDelete_cons]
    by_cases hp : p.1 = i
    · rw [if_pos hp]; exact ih
    · rw [if_neg hp, dbGet_cons, if_neg hp]; exact ih

theorem requireOrg_ok (idn : Identity) (org : String)
    (h1 : idn.orgId = some org) (h2 : org ≠ "") :
    requireOrg (some idn) = .ok org := by
  simp [requireOrg, h1, h2]

theorem applyTitle_some_ok {d d1 : Doc} {t : String}
    (h : applyTitle d (some t) = .ok d1) :
    isBlank t = false ∧ d1 = { d with title := t } := by
  by_cases hb : isBlank t
  · simp [applyTitle, hb] at h
  · simp [applyTitle, hb] at h
    exact ⟨by simpa using hb, h.symm⟩

theorem applyContent_some_ok {d d2 : Doc} {c : String}
    (h : applyContent d (some c) = .ok d2) :
    isBlank c = false ∧ d2 = { d with content := c, embedding := none } := by
  by_cases hb : isBlank c
  · simp [applyContent, hb] at h
  · simp [applyContent, hb] at h
    exact ⟨by simpa using hb, h.symm⟩

theorem update_ok_inv {ident : Option Identity} {now : Nat} {db : Db}
    {documentId : Nat} {t? c? : Option String} {r : Nat} {db1 : Db}
    (h : update ident now db documentId t? c? = .ok (r, db1)) :
    ∃ document d1 d2, dbGet db documentId = some document ∧
      applyTitle { document with updatedAt := some now } t? = .ok d1 ∧
      applyContent d1 c? = .ok d2 ∧
      r = documentId ∧ db1 = dbPatch db documentId d2 := by
  cases hro : requireOrg ident with
  | error e => simp only [update, hro] at h; cases h
  | ok orgId =>
    simp only [update, hro] at h
    cases hdg : dbGet db documentId with
    | none => rw [hdg] at h; cases h
    | some document =>
      rw [hdg] at h
      simp only at h
      by_cases horg : document.organizationId ≠ orgId
      · rw [if_pos horg] at h; cases h
      · rw [if_neg horg] at h
        cases hat : applyTitle { document with updatedAt := some now } t? with
        | error e => rw [hat] at h; cases h
        | ok d1 =>
          rw [hat] at h
          simp only at h
          cases hac : applyContent d1 c? with
          | error e => rw [hac] at h; cases h
          | ok d2 =>
            rw [hac] at h
            injection h with hpair
            injection hpair with ha hb
            exact ⟨document, d1, d2, rfl, hat, hac, ha.symm, hb.symm⟩

theorem mem_vectorSearch {db : Db} {org : String} {p : Nat × Doc}
    (h : p ∈ vectorSearch db org) :
    p ∈ db ∧ p.2.organizationId = org ∧ p.2.embedding.isSome = true := by
  simp only [vectorSearch, List.mem_filter, Bool.and_eq_true, decide_eq_true_eq] at h
  exact ⟨h.1, h.2.1, h.2.2⟩

theorem assembleChars_cons (budgetChars floorChars used : Nat) (c : List Char)
    (rest : List (List Char)) :
    assembleChars budgetChars floorChars used (c :: rest) =
      if used + c.length ≤ budgetChars then
        c ++ assembleChars budgetChars floorChars (used + c.length) rest
      else c.take (max (budgetChars - used) floorChars) := rfl

theorem assembleChars_length_le (budgetChars floorChars : Nat)
    (cs : List (List Char)) :
    ∀ used : Nat, used ≤ budgetChars →
      (assembleChars budgetChars floorChars used cs).length ≤
        (budgetChars - used) + floorChars := by
  induction cs with
  | nil => intro used _; simp [assembleChars]
  | cons c rest ih =>
    intro used h
    rw [assembleChars_cons]
    by_cases hfit : used + c.length ≤ budgetChars
    · rw [if_pos hfit, List.length_append]
      have h2 := ih (used + c.length) hfit
      omega
    · rw [if_neg hfit]
      have h3 : (c.take (max (budgetChars - used) floorChars)).length ≤
          max (budgetChars - used) floorChars := by
        rw [List.length_take]; omega
      omega

/-- C6: the assembled retrieval context never exceeds the token budget by
more than the per-candidate truncation floor: its approximate token count
is at most `maxTokens + floorTokens`, for every tenant, budget, floor and
knowledge-base contents (including documents individually larger than the
budget). The Retrieval & Context Assembler is modelled from the spec; its
action (api.private.ragIntegration.searchKnowledgeBase) is not among the
provided sources. -/
theorem retrieve_respects_token_budget (db : Db) (orgId : String)
    (maxTokens floorTokens : Nat) :
    approxTokens (retrieve db orgId maxTokens floorTokens) ≤
      maxTokens + floorTokens := by
  have h := assembleChars_length_le (maxTokens * 4) (floorTokens * 4)
    (withDelims "\n\n".data
      (((vectorSearch db orgId).map (fun p => p.2.content)).map String.data))
    0 (Nat.zero_le _)
  show (assembleChars (maxTokens * 4) (floorTokens * 4) 0
    (withDelims "\n\n".data
      (((vectorSearch db orgId).map (fun p => p.2.content)).map String.data))).length / 4 ≤
    maxTokens + floorTokens
  omega

/-- C1: after any completed update call whose partial fields include
content, the stored row for the document holds the new content with the
embedding field cleared, and no row for that document id participates in
vector search any more (for any tenant filter) until re-embedded. -/
theorem update_clears_embedding_on_content_change
    (ident : Option Identity) (now : Nat) (db : Db) (documentId : Nat)
    (title : Option String) (c : String) (r : Nat) (db1 : Db)
    (h : update ident now db documentId title (some c) = .ok (r, db1)) :
    dbGet db1 documentId ≠ none ∧
    (∀ dNew, dbGet db1 documentId = some dNew →
      dNew.content = c ∧ dNew.embedding = none) ∧
    (∀ org p, p ∈ vectorSearch db1 org → p.1 ≠ documentId) := by
  obtain ⟨document, d1, d2, hdg, _, hac, _, hdb⟩ := update_ok_inv h
  obtain ⟨_, hd2⟩ := applyContent_some_ok hac
  subst hdb
  have hsome : (dbGet db documentId).isSome := by rw [hdg]; rfl
  have hget : dbGet (dbPatch db documentId d2) documentId = some d2 :=
    dbGet_dbPatch_self db documentId d2 hsome
  refine ⟨by rw [hget]; exact fun hx => Option.noConfusion hx, ?_, ?_⟩
  · intro dNew hdNew
    rw [hget] at hdNew
    injection hdNew with hdN
    subst hdN
    rw [hd2]
    exact ⟨rfl, rfl⟩
  · intro org p hp
    obtain ⟨hpmem, _, hpemb⟩ := mem_vectorSearch hp
    rcases mem_dbPatch hpmem with heq | ⟨_, hne⟩
    · rw [heq] at hpemb
      rw [show (documentId, d2).2 = d2 from rfl, hd2] at hpemb
      cases hpemb
    · exact hne

/-- Witness for C1: evaluating update with new content "new" on a stored
document that had an embedding. -/
theorem update_clears_embedding_witness :
    dbGet [(0, docA2)] 0 ≠ none ∧ docA2.content = "new" ∧ docA2.embedding = none := by
  have h := update_clears_embedding_on_content_change
    (some identA) 5 [(0, docA)] 0 none "new" 0 [(0, docA2)] (by rfl)
  exact ⟨h.1, (h.2.1 docA2 rfl).1, (h.2.1 docA2 rfl).2⟩

theorem applyTitle_none_ok {d d1 : Doc} (h : applyTitle d none = .ok d1) :
    d1 = d := by
  injection h with h2
  exact h2.symm

theorem applyContent_none_ok {d d2 : Doc} (h : applyContent d none = .ok d2) :
    d2 = d := by
  injection h with h2
  exact h2.symm

theorem applyTitle_frame {d d1 : Doc} {t? : Option String}
    (h : applyTitle d t? = .ok d1) :
    d1.organizationId = d.organizationId ∧ d1.content = d.content ∧
    d1.embedding = d.embedding ∧ d1.mimeType = d.mimeType ∧
    d1.fileName = d.fileName ∧ d1.embedUrl = d.embedUrl ∧
    d1.storageId = d.storageId ∧ d1.createdAt = d.createdAt ∧
    d1.updatedAt = d.updatedAt := by
  cases t? with
  | none => rw [applyTitle_none_ok h]; exact ⟨rfl, rfl, rfl, rfl, rfl, rfl, rfl, rfl, rfl⟩
  | some t =>
    obtain ⟨_, hd⟩ := applyTitle_some_ok h
    subst hd
    exact ⟨rfl, rfl, rfl, rfl, rfl, rfl, rfl, rfl, rfl⟩

theorem applyContent_frame {d d2 : Doc} {c? : Option String}
    (h : applyContent d c? = .ok d2) :
    d2.organizationId = d.organizationId ∧ d2.title = d.title ∧
    d2.mimeType = d.mimeType ∧ d2.fileName = d.fileName ∧
    d2.embedUrl = d.embedUrl ∧ d2.storageId = d.storageId ∧
    d2.createdAt = d.createdAt ∧ d2.updatedAt = d.updatedAt := by
  cases c? with
  | none => rw [applyContent_none_ok h]; exact ⟨rfl, rfl, rfl, rfl, rfl, rfl, rfl, rfl⟩
  | some c =>
    obtain ⟨_, hd⟩ := applyContent_some_ok h
    subst hd
    exact ⟨rfl, rfl, rfl, rfl, rfl, rfl, rfl, rfl⟩

/-- C10: a successful update modifies only the title, content, embedding
and updatedAt fields of the target document — organizationId, mimeType,
fileName, embedUrl, storageId and createdAt are unchanged — a title-only
update (content not among the partial fields) leaves content and embedding
unchanged, a content-free and title-free update leaves the title unchanged
as well, and rows of other documents are untouched. -/
theorem update_frame
    (ident : Option Identity) (now : Nat) (db : Db) (documentId : Nat)
    (t? c? : Option String) (r : Nat) (db1 : Db) (d : Doc)
    (h : update ident now db documentId t? c? = .ok (r, db1))
    (hd : dbGet db documentId = some d) :
    dbGet db1 documentId ≠ none ∧
    (∀ dNew, dbGet db1 documentId = some dNew →
      dNew.organizationId = d.organizationId ∧ dNew.mimeType = d.mimeType ∧
      dNew.fileName = d.fileName ∧ dNew.embedUrl = d.embedUrl ∧
      dNew.storageId = d.storageId ∧ dNew.createdAt = d.createdAt ∧
      dNew.updatedAt = some now ∧
      (t? = none → dNew.title = d.title) ∧
      (c? = none → dNew.content = d.content ∧ dNew.embedding = d.embedding)) ∧
    (∀ j, j ≠ documentId → dbGet db1 j = dbGet db j) := by
  obtain ⟨document, d1, d2, hdg, hat, hac, _, hdb⟩ := update_ok_inv h
  rw [hd] at hdg
  injection hdg with hdoc
  subst hdoc
  subst hdb
  have hsome : (dbGet db documentId).isSome := by rw [hd]; rfl
  have hget : dbGet (dbPatch db documentId d2) documentId = some d2 :=
    dbGet_dbPatch_self db documentId d2 hsome
  obtain ⟨ht1, ht2, ht3, ht4, ht5, ht6, ht7, ht8, ht9⟩ := applyTitle_frame hat
  obtain ⟨hc1, hc2, hc3, hc4, hc5, hc6, hc7, hc8⟩ := applyContent_frame hac
  refine ⟨by rw [hget]; exact fun hx => Option.noConfusion hx, ?_, ?_⟩
  · intro dNew hdNew
    rw [hget] at hdNew
    injection hdNew with hdN
    subst hdN
    refine ⟨hc1.trans ht1, hc3.trans ht4, hc4.trans ht5, hc5.trans ht6,
      hc6.trans ht7, hc7.trans ht8, hc8.trans ht9, ?_, ?_⟩
    · intro ht
      subst ht
      rw [hc2, applyTitle_none_ok hat]
    · intro hc
      subst hc
      rw [applyContent_none_ok hac]
      exact ⟨ht2, ht3⟩
  · intro j hj
    exact dbGet_dbPatch_ne db documentId j d2 hj

/-- Witness for C10: a title-only update leaves content, embedding and
createdAt unchanged. -/
theorem update_frame_witness :
    docA3.content = docA.content ∧ docA3.embedding = docA.embedding ∧
    docA3.createdAt = docA.createdAt := by
  have h := update_frame (some identA) 5 [(0, docA)] 0 (some "T2") none
    0 [(0, docA3)] docA (by rfl) rfl
  have h2 := h.2.1 docA3 rfl
  exact ⟨(h2.2.2.2.2.2.2.2.2 rfl).1, (h2.2.2.2.2.2.2.2.2 rfl).2, h2.2.2.2.2.2.1⟩

/-- C2: tenant isolation — getOne, update and remove all fail with the
FORBIDDEN access-denied error on a document whose organizationId differs
from the caller's organization (a thrown Convex mutation writes nothing),
and the tenant-filtered vector search only ranges over documents of the
given organization. -/
theorem tenant_isolation
    (idn : Identity) (org : String) (now : Nat) (db : Db) (storage : Storage)
    (documentId : Nat) (d : Doc) (t? c? : Option String)
    (h1 : idn.orgId = some org) (h2 : org ≠ "")
    (hd : dbGet db documentId = some d) (hno : d.organizationId ≠ org) :
    getOne (some idn) db documentId = .error .FORBIDDEN ∧
    update (some idn) now db documentId t? c? = .error .FORBIDDEN ∧
    remove (some idn) db storage documentId = .error .FORBIDDEN ∧
    (∀ p ∈ vectorSearch db org, p.2.organizationId = org) := by
  have hro := requireOrg_ok idn org h1 h2
  refine ⟨?_, ?_, ?_, ?_⟩
  · simp only [getOne, hro, hd]
    rw [if_pos hno]
  · simp only [update, hro, hd]
    rw [if_pos hno]
  · simp only [remove, hro, hd]
    rw [if_pos hno]
  · intro p hp
    exact (mem_vectorSearch hp).2.1

/-- Witness for C2: the orgA caller is denied on an orgB document. -/
theorem tenant_isolation_witness :
    getOne (some identA) [(1, docB)] 1 = .error ErrCode.FORBIDDEN ∧
    update (some identA) 9 [(1, docB)] 1 (some "T2") none = .error ErrCode.FORBIDDEN ∧
    remove (some identA) [(1, docB)] [] 1 = .error ErrCode.FORBIDDEN := by
  have h := tenant_isolation identA "orgA" 9 [(1, docB)] [] 1 docB
    (some "T2") none rfl (by decide) rfl (by decide)
  exact ⟨h.1, h.2.1, h.2.2.1⟩

/-- C8: for a document owned by the caller, remove succeeds; afterwards the
document record is gone, the stored blob is deleted when the document has a
storageId, and the blob store is untouched when it has none. -/
theorem remove_deletes_doc_and_blob
    (idn : Identity) (org : String) (db : Db) (storage : Storage)
    (documentId : Nat) (d : Doc)
    (h1 : idn.orgId = some org) (h2 : org ≠ "")
    (hd : dbGet db documentId = some d) (hown : d.organizationId = org) :
    (∀ e, remove (some idn) db storage documentId ≠ .error e) ∧
    (∀ db1 st1, remove (some idn) db storage documentId = .ok (db1, st1) →
      dbGet db1 documentId = none ∧
      (∀ s, d.storageId = some s → s ∉ st1) ∧
      (d.storageId = none → st1 = storage)) := by
  have hro := requireOrg_ok idn org h1 h2
  have hrm : remove (some idn) db storage documentId =
      .ok (dbDelete db documentId,
        match d.storageId with
        | some s => storageDelete storage s
        | none => storage) := by
    simp only [remove, hro, hd]
    rw [if_neg (fun hne => hne hown)]
  refine ⟨?_, ?_⟩
  · intro e he
    rw [hrm] at he
    cases he
  · intro db1 st1 heq
    rw [hrm] at heq
    injection heq with hpair
    injection hpair with hdb1 hst1
    subst hdb1
    refine ⟨dbGet_dbDelete_self db documentId, ?_, ?_⟩
    · intro s hs hmem
      rw [hs] at hst1
      subst hst1
      simp only [storageDelete, List.mem_filter, decide_eq_true_eq] at hmem
      exact hmem.2 rfl
    · intro hnone
      rw [hnone] at hst1
      exact hst1.symm

/-- Witness for C8: removing docA (which has storageId 7) empties the
single-row database and deletes blob 7 from the store. -/
theorem remove_deletes_witness :
    dbGet ([] : Db) 0 = none ∧ (7 : Nat) ∉ ([9] : Storage) := by
  have h := remove_deletes_doc_and_blob identA "orgA" [(0, docA)] [7, 9] 0 docA
    rfl (by decide) rfl rfl
  have h2 := h.2 [] [9] (by rfl)
  exact ⟨h2.1, h2.2.1 7 rfl⟩

/-- C9: getAll returns exactly the documents whose organizationId equals
the caller's organization, sorted by createdAt in non-increasing order
(newest first); when the organization has no documents the result is the
empty list, not an error. -/
theorem getAll_org_scoped_sorted
    (idn : Identity) (org : String) (db : Db) (l : List Doc)
    (h1 : idn.orgId = some org) (h2 : org ≠ "")
    (h3 : getAll (some idn) db = .ok l) :
    (∀ d : Doc, d ∈ l ↔ ∃ i, (i, d) ∈ db ∧ d.organizationId = org) ∧
    List.Sorted newestFirst l ∧
    ((∀ x ∈ db, x.2.organizationId ≠ org) → l = []) := by
  have hro := requireOrg_ok idn org h1 h2
  simp only [getAll, hro] at h3
  injection h3 with h3
  subst h3
  refine ⟨?_, List.sorted_insertionSort newestFirst _, ?_⟩
  · intro d
    rw [(List.perm_insertionSort newestFirst _).mem_iff]
    simp only [List.mem_map, List.mem_filter, decide_eq_true_eq]
    constructor
    · rintro ⟨p, ⟨hp, horg⟩, hpd⟩
      subst hpd
      exact ⟨p.1, by simpa using hp, horg⟩
    · rintro ⟨i, hi, horg⟩
      exact ⟨(i, d), ⟨hi, horg⟩, rfl⟩
  · intro hnone
    have hf : db.filter (fun p => decide (p.2.organizationId = org)) = [] := by
      rw [List.filter_eq_nil_iff]
      intro a ha
      simpa using hnone a ha
    rw [hf]
    rfl

/-- Witness for C9: the orgA caller sees exactly its own document. -/
theorem getAll_witness :
    docA ∈ [docA] ∧ List.Sorted newestFirst [docA] := by
  have h := getAll_org_scoped_sorted identA "orgA" [(0, docA), (1, docB)] [docA]
    rfl (by decide) (by rfl)
  exact ⟨(h.1 docA).mpr ⟨0, by simp, rfl⟩, h.2.1⟩

theorem applyTitle_docOk {d d1 : Doc} {t? : Option String}
    (h : applyTitle d t? = .ok d1) (hok : docOk d) : docOk d1 := by
  cases t? with
  | none => rw [applyTitle_none_ok h]; exact hok
  | some t =>
    obtain ⟨hb, hd⟩ := applyTitle_some_ok h
    subst hd
    exact ⟨hb, hok.2⟩

theorem applyContent_docOk {d d2 : Doc} {c? : Option String}
    (h : applyContent d c? = .ok d2) (hok : docOk d) : docOk d2 := by
  cases c? with
  | none => rw [applyContent_none_ok h]; exact hok
  | some c =>
    obtain ⟨hb, hd⟩ := applyContent_some_ok h
    subst hd
    exact ⟨hok.1, hb⟩

theorem create_ok_inv {ident : Option Identity} {now : Nat} {db : Db}
    {newId : Nat} {t c mt fn : String} {eu : Option String} {si : Option Nat}
    {r : Nat} {db1 : Db}
    (h : create ident now db newId t c mt fn eu si = .ok (r, db1)) :
    ∃ orgId, requireOrg ident = .ok orgId ∧
      isBlank t = false ∧ isBlank c = false ∧ r = newId ∧
      db1 = (newId,
        { organizationId := orgId, title := t, content := c, mimeType := mt
          fileName := fn, embedUrl := eu, storageId := si, embedding := none
          createdAt := now, updatedAt := none }) :: db := by
  cases hro : requireOrg ident with
  | error e => simp only [create, hro] at h; cases h
  | ok orgId =>
    simp only [create, hro] at h
    by_cases ht : isBlank t
    · rw [if_pos ht] at h; cases h
    · rw [if_neg ht] at h
      by_cases hc : isBlank c
      · rw [if_pos hc] at h; cases h
      · rw [if_neg hc] at h
        injection h with hpair
        injection hpair with ha hb
        exact ⟨orgId, rfl, by simp [ht], by simp [hc], ha.symm, hb.symm⟩

/-- C7: create and update reject a blank (empty or whitespace-only) title
and a blank content with BAD_REQUEST (a thrown Convex mutation writes
nothing), successful create and update preserve the invariant that every
stored document has a non-blank title and content, and a non-blank string
is in particular non-empty. -/
theorem create_update_validation
    (idn : Identity) (org : String)
    (h1 : idn.orgId = some org) (h2 : org ≠ "") :
    (∀ now db newId t c mt fn eu si, (isBlank t = true ∨ isBlank c = true) →
      create (some idn) now db newId t c mt fn eu si = .error .BAD_REQUEST) ∧
    (∀ now db i d t c?, dbGet db i = some d → d.organizationId = org →
      isBlank t = true →
      update (some idn) now db i (some t) c? = .error .BAD_REQUEST) ∧
    (∀ now db i d t? c, dbGet db i = some d → d.organizationId = org →
      isBlank c = true →
      update (some idn) now db i t? (some c) = .error .BAD_REQUEST) ∧
    (∀ now db newId t c mt fn eu si r db1,
      create (some idn) now db newId t c mt fn eu si = .ok (r, db1) →
      (∀ x ∈ db, docOk x.2) → ∀ x ∈ db1, docOk x.2) ∧
    (∀ now db i t? c? r db1,
      update (some idn) now db i t? c? = .ok (r, db1) →
      (∀ x ∈ db, docOk x.2) → ∀ x ∈ db1, docOk x.2) ∧
    (∀ d : Doc, docOk d → d.title ≠ "" ∧ d.content ≠ "") := by
  have hro := requireOrg_ok idn org h1 h2
  refine ⟨?_, ?_, ?_, ?_, ?_, ?_⟩
  · intro now db newId t c mt fn eu si hblank
    simp only [create, hro]
    rcases hblank with ht | hc
    · rw [if_pos ht]
    · by_cases ht : isBlank t
      · rw [if_pos ht]
      · rw [if_neg ht, if_pos hc]
  · intro now db i d t c? hd horg hb
    simp [update, hro, hd, horg, applyTitle, hb]
  · intro now db i d t? c hd horg hb
    cases t? with
    | none => simp [update, hro, hd, horg, applyTitle, applyContent, hb]
    | some t =>
      by_cases ht : isBlank t
      · simp [update, hro, hd, horg, applyTitle, ht]
      · simp [update, hro, hd, horg, applyTitle, ht, applyContent, hb]
  · intro now db newId t c mt fn eu si r db1 hcr hall x hx
    obtain ⟨orgId, _, ht, hc, _, hdb1⟩ := create_ok_inv hcr
    subst hdb1
    rcases List.mem_cons.mp hx with hx | hx
    · subst hx
      exact ⟨ht, hc⟩
    · exact hall x hx
  · intro now db i t? c? r db1 hup hall x hx
    obtain ⟨document, d1, d2, hdg, hat, hac, _, hdb1⟩ := update_ok_inv hup
    subst hdb1
    rcases mem_dbPatch hx with hx | ⟨hx, _⟩
    · subst hx
      have hdoc : docOk document := hall (i, document) (dbGet_mem hdg)
      have hd0 : docOk { document with updatedAt := some now } :=
        ⟨hdoc.1, hdoc.2⟩
      exact applyContent_docOk hac (applyTitle_docOk hat hd0)
    · exact hall x hx
  · intro d hok
    constructor
    · intro he
      have : isBlank d.title = true := by rw [he]; rfl
      rw [hok.1] at this
      cases this
    · intro he
      have : isBlank d.content = true := by rw [he]; rfl
      rw [hok.2] at this
      cases this

/-- Witness for C7: a whitespace-only title is rejected by create and an
empty content is rejected by update, at concrete inputs. -/
theorem create_update_validation_witness :
    create (some identA) 1 [] 0 " " "c" "m" "f" none none =
      .error ErrCode.BAD_REQUEST ∧
    update (some identA) 1 [(0, docA)] 0 none (some "") =
      .error ErrCode.BAD_REQUEST := by
  have h := create_update_validation identA "orgA" rfl (by decide)
  exact ⟨h.1 1 [] 0 " " "c" "m" "f" none none (Or.inl (by decide)),
    h.2.2.1 1 [(0, docA)] 0 docA none "" rfl rfl (by decide)⟩

/-- C3: the adapter's embedMany is length- and order-preserving — for a
provider whose batch call is consistent with a per-text embedding function
f0 (a batch-only provider or one exposing both shapes), and for a provider
exposing only single-text embedding (the fan-out path), v2embedMany
returns exactly one vector per input text, in input order, identical
across the provider shapes; the v1 adapter doEmbed likewise forwards the
batch unchanged. -/
theorem embedMany_length_and_order_preserving
    (p : ProviderV1) (f0 : String → List ℚ) (inputs : List String)
    (h : (∃ g, p.embedMany = some g ∧ ∀ xs, g xs = xs.map f0) ∨
         (p.embedMany = none ∧ ∃ f, p.embed = some f ∧ ∀ s, f s = .vec (f0 s))) :
    v2embedMany p inputs = .ok (inputs.map (fun s => EmbedOut.vec (f0 s))) ∧
    (∀ out, v2embedMany p inputs = .ok out →
      out.length = inputs.length ∧
      ∀ i : Nat, out[i]? = (inputs[i]?).map (fun s => EmbedOut.vec (f0 s))) ∧
    (∀ m : List String → List (List ℚ), (∀ xs, m xs = xs.map f0) →
      doEmbed m inputs = inputs.map f0) := by
  have hmain : v2embedMany p inputs =
      .ok (inputs.map (fun s => EmbedOut.vec (f0 s))) := by
    rcases h with ⟨g, hg, hgfun⟩ | ⟨hnone, f, hf, hffun⟩
    · simp only [v2embedMany, hg, hgfun, List.map_map]
      rfl
    · simp only [v2embedMany, hnone, hf]
      rw [funext hffun]
  refine ⟨hmain, ?_, ?_⟩
  · intro out hout
    rw [hmain] at hout
    injection hout with hout
    subst hout
    exact ⟨by simp, fun i => by simp [List.getElem?_map]⟩
  · intro m hm
    simp [doEmbed, hm]

/-- Witness for C3: a two-text batch through the batch-only, single-only
and both-shapes providers gives the same two vectors in order. -/
theorem embedMany_shape_witness :
    v2embedMany provBatch ["a", "b"] = .ok [.vec [3], .vec [3]] ∧
    v2embedMany provSingle ["a", "b"] = .ok [.vec [3], .vec [3]] ∧
    v2embedMany provBoth ["a", "b"] = .ok [.vec [3], .vec [3]] := by
  refine ⟨?_, ?_, ?_⟩
  · exact (embedMany_length_and_order_preserving provBatch (fun _ => [3])
      ["a", "b"] (Or.inl ⟨_, rfl, fun xs => rfl⟩)).1
  · exact (embedMany_length_and_order_preserving provSingle (fun _ => [3])
      ["a", "b"] (Or.inr ⟨rfl, _, rfl, fun s => rfl⟩)).1
  · exact (embedMany_length_and_order_preserving provBoth (fun _ => [3])
      ["a", "b"] (Or.inl ⟨_, rfl, fun xs => rfl⟩)).1

/-- Counterexample for C4: the adapter performs no dimensionality check —
on a provider returning a 2-element vector (2 is not the configured 3072)
v2embed succeeds and returns that wrong-length vector rather than failing
with DimensionMismatch. -/
theorem adapter_no_dimension_check_counterexample :
    v2embed provShort "x" = .ok (.vec [1, 2]) ∧
    ([(1 : ℚ), 2].length ≠ ragEmbeddingDimension) ∧
    (∀ e, v2embed provShort "x" ≠ .error e) := by
  refine ⟨rfl, by decide, ?_⟩
  intro e he
  rw [show v2embed provShort "x" = .ok (.vec [1, 2]) from rfl] at he
  cases he

/-- C4 as amended: the adapter itself never truncates or pads — it returns
the provider's vectors verbatim, whatever their length — and the target
dimensionality 3072 is supplied as configuration (embeddingDimension) to
the external RAG component rather than enforced by the adapter. -/
theorem adapter_forwards_vectors_verbatim
    (p : ProviderV1) (f : String → EmbedOut) (input : String) (v : List ℚ)
    (h : p.embed = some f) (hv : f input = .vec v) :
    v2embed p input = .ok (.vec v) ∧
    (∀ g inputs, p.embedMany = some g →
      v2embedMany p inputs = .ok ((g inputs).map EmbedOut.vec)) ∧
    ragEmbeddingDimension = 3072 := by
  refine ⟨?_, ?_, rfl⟩
  · simp [v2embed, h, hv, unwrapEmbedOut]
  · intro g inputs hg
    simp [v2embedMany, hg]

/-- Witness for C4's amended claim: the 2-element vector comes back
verbatim and the configured dimension is 3072. -/
theorem adapter_forwards_witness :
    v2embed provShort "y" = .ok (.vec [1, 2]) ∧ ragEmbeddingDimension = 3072 := by
  have h := adapter_forwards_vectors_verbatim provShort (fun _ => .vec [1, 2])
    "y" [1, 2] rfl rfl
  exact ⟨h.1, h.2.2⟩

/-- C5: v2embed tries the single-text shape first (used whenever present,
regardless of embedMany), falls back to the batch shape on a singleton
batch (returning its one vector when the provider is length-preserving),
and throws — the spec's ProviderUnavailable — exactly when the provider
exposes neither call shape. -/
theorem embed_one_provider_fallback (p : ProviderV1) (input : String) :
    (∀ f, p.embed = some f →
      v2embed p input = .ok (.vec (unwrapEmbedOut (f input)))) ∧
    (∀ g, p.embed = none → p.embedMany = some g →
      ∀ v, g [input] = [v] → v2embed p input = .ok (.vec v)) ∧
    ((∃ e, v2embed p input = .error e) ↔ p.embed = none ∧ p.embedMany = none) := by
  refine ⟨?_, ?_, ?_, ?_⟩
  · intro f hf
    simp [v2embed, hf]
  · intro g hnone hg v hv
    simp [v2embed, hnone, hg, hv]
  · rintro ⟨e, he⟩
    cases hf : p.embed with
    | some f => simp [v2embed, hf] at he
    | none =>
      cases hg : p.embedMany with
      | some g =>
        cases hh : (g [input]).head? <;> simp [v2embed, hf, hg, hh] at he
      | none => exact ⟨rfl, rfl⟩
  · rintro ⟨hf, hg⟩
    exact ⟨"v1 embedding model has no embed/embedMany", by simp [v2embed, hf, hg]⟩

/-- Witness for C5: a provider with a single-text shape and one with only
the batch shape both succeed with the one vector. -/
theorem embed_one_fallback_witness :
    v2embed provBoth "q" = .ok (.vec [3]) ∧
    v2embed provBatch "q" = .ok (.vec [3]) := by
  have h1 := (embed_one_provider_fallback provBoth "q").1
    (fun _ => .vec [3]) rfl
  have h2 := (embed_one_provider_fallback provBatch "q").2.1
    (fun xs => xs.map (fun _ => [3])) rfl rfl [3] rfl
  exact ⟨h1, h2⟩

end EchoBot
